import Mathlib

/-!
Verification of the rask concurrent runtime (src/compiler/runtime) against its
natural-language specification.  The C code is shallowly embedded: each
mutex-protected critical section becomes a pure function on an explicit state
record; a condition-variable wait is modelled by returning `none` (the caller
blocks with the state unchanged and the function is re-applied to whatever
state it wakes up to, exactly like the C re-check loops); machine integers are
`Nat`/`Int`; byte buffers are functions from byte addresses to byte values.
-/

set_option maxHeartbeats 1000000

namespace Rask

/-! ## Channel model — src/compiler/runtime/channel.c

Status codes from rask_runtime.h. -/

def RASK_CHAN_OK : Int := 0

def RASK_CHAN_CLOSED : Int := -1

def RASK_CHAN_FULL : Int := -2

def RASK_CHAN_EMPTY : Int := -3

/-- Reading `n` bytes through a pointer `src` (the C `memcpy` source view). -/
def readBytes (src : Nat → Nat) (n : Nat) : List Nat :=
  (List.range n).map src

/-- The C `memcpy(slot, data, elem_size)` where `slot = buffer + i*elem_size`:
bytes `[i*elemSize, (i+1)*elemSize)` of the flat buffer are replaced by the
source bytes, everything else is untouched. -/
def writeSlot (buf : Nat → Nat) (elemSize i : Nat) (src : Nat → Nat) : Nat → Nat :=
  fun addr =>
    if i * elemSize ≤ addr ∧ addr < (i + 1) * elemSize then src (addr - i * elemSize)
    else buf addr

/-- The C `memcpy(data_out, slot, elem_size)` where `slot = buffer + i*elem_size`. -/
def readSlot (buf : Nat → Nat) (elemSize i : Nat) : List Nat :=
  (List.range elemSize).map (fun j => buf (i * elemSize + j))

/-- State of a `RaskChannel` (channel.c, `struct RaskChannel`), minus the
pthread primitives which the embedding replaces by atomic critical sections.
`handoffData` holds the sender's data pointer, modelled as the byte view of
the sender's element. -/
structure ChanState where
  elemSize : Nat
  capacity : Nat
  buffer : Nat → Nat
  head : Nat
  tail : Nat
  count : Nat
  handoffData : Option (Nat → Nat)
  handoffReady : Bool
  handoffTaken : Bool
  senderCount : Nat
  recverCount : Nat
  closed : Bool

/-- `channel_alloc` (channel.c): calloc zeroes every field, both refcounts
start at 1, the buffer (if any) is zeroed. -/
def channel_alloc (elemSize capacity : Nat) : ChanState :=
  { elemSize := elemSize
    capacity := capacity
    buffer := fun _ => 0
    head := 0
    tail := 0
    count := 0
    handoffData := none
    handoffReady := false
    handoffTaken := false
    senderCount := 1
    recverCount := 1
    closed := false }

/-- `buffered_send` (channel.c:110).  One critical-section pass of the call:
`none` means the call executes `pthread_cond_wait(not_full)` (state unchanged;
on wake the function is re-applied, like the C `while` re-check). -/
def buffered_send (ch : ChanState) (data : Nat → Nat) : Option (ChanState × Int) :=
  if ch.count ≥ ch.capacity ∧ ¬ch.closed then
    if ch.recverCount = 0 then
      some ({ ch with closed := true }, RASK_CHAN_CLOSED)
    else
      none
  else if ch.closed ∨ ch.recverCount = 0 then
    some (ch, RASK_CHAN_CLOSED)
  else
    some ({ ch with
              buffer := writeSlot ch.buffer ch.elemSize ch.tail data
              tail := (ch.tail + 1) % ch.capacity
              count := ch.count + 1 },
          RASK_CHAN_OK)

/-- `buffered_recv` (channel.c:138).  `none` models the wait on `not_empty`. -/
def buffered_recv (ch : ChanState) : Option (ChanState × Int × Option (List Nat)) :=
  if ch.count = 0 then
    if ch.senderCount = 0 then some (ch, RASK_CHAN_CLOSED, none)
    else if ch.closed then some (ch, RASK_CHAN_CLOSED, none)
    else none
  else
    some ({ ch with head := (ch.head + 1) % ch.capacity, count := ch.count - 1 },
          RASK_CHAN_OK, some (readSlot ch.buffer ch.elemSize ch.head))

/-- `buffered_try_send` (channel.c:164). -/
def buffered_try_send (ch : ChanState) (data : Nat → Nat) : ChanState × Int :=
  if ch.closed ∨ ch.recverCount = 0 then (ch, RASK_CHAN_CLOSED)
  else if ch.count ≥ ch.capacity then (ch, RASK_CHAN_FULL)
  else ({ ch with
            buffer := writeSlot ch.buffer ch.elemSize ch.tail data
            tail := (ch.tail + 1) % ch.capacity
            count := ch.count + 1 },
        RASK_CHAN_OK)

/-- `buffered_try_recv` (channel.c:188). -/
def buffered_try_recv (ch : ChanState) : ChanState × Int × Option (List Nat) :=
  if ch.count = 0 then
    if ch.senderCount = 0 ∨ ch.closed then (ch, RASK_CHAN_CLOSED, none)
    else (ch, RASK_CHAN_EMPTY, none)
  else
    ({ ch with head := (ch.head + 1) % ch.capacity, count := ch.count - 1 },
     RASK_CHAN_OK, some (readSlot ch.buffer ch.elemSize ch.head))

/-- Epilogue of `unbuffered_send` (channel.c:247-249): clear ready flag,
pointer and taken flag. -/
def clearHandoff (ch : ChanState) : ChanState :=
  { ch with handoffReady := false, handoffData := none, handoffTaken := false }

/-- First half of `unbuffered_send` (channel.c:214-236): the wait-for-previous
-handoff loop followed by the closure check and the offer.  Results:
`none` — waits on `not_full`; `some (ch', some r)` — the call returns `r`
without offering; `some (ch', none)` — the element is offered
(`handoff_data`/`ready`/`taken` set) and the call proceeds to the second wait
loop, `unbuffered_send_finish`. -/
def unbuffered_send_enter (ch : ChanState) (data : Nat → Nat) :
    Option (ChanState × Option Int) :=
  if ch.handoffReady ∧ ¬ch.closed then
    if ch.recverCount = 0 then some ({ ch with closed := true }, some RASK_CHAN_CLOSED)
    else none
  else if ch.closed ∨ ch.recverCount = 0 then
    some (ch, some RASK_CHAN_CLOSED)
  else
    some ({ ch with handoffData := some data, handoffReady := true, handoffTaken := false },
          none)

/-- Second half of `unbuffered_send` (channel.c:238-253): wait until the
receiver takes the data (or closure), then clear the handoff fields and
return `CLOSED` when the closed flag is set, `OK` otherwise.  `none` models
the wait on `not_full`. -/
def unbuffered_send_finish (ch : ChanState) : Option (ChanState × Int) :=
  if ¬ch.handoffTaken ∧ ¬ch.closed then
    if ch.recverCount = 0 then
      some (clearHandoff { ch with closed := true }, RASK_CHAN_CLOSED)
    else none
  else
    some (clearHandoff ch, if ch.closed then RASK_CHAN_CLOSED else RASK_CHAN_OK)

/-- `unbuffered_recv` (channel.c:256): on a pending offer, copy the sender's
bytes, clear `ready` BEFORE setting `taken` (the comment in the source
explains this ordering) and return `OK`.  `none` models the wait on
`not_empty`.  The `getD` stands for the C dereference of `handoff_data`,
which is non-null whenever `handoff_ready` is set. -/
def unbuffered_recv (ch : ChanState) : Option (ChanState × Int × Option (List Nat)) :=
  if ¬ch.handoffReady then
    if ch.senderCount = 0 ∨ ch.closed then some (ch, RASK_CHAN_CLOSED, none)
    else none
  else
    some ({ ch with handoffReady := false, handoffTaken := true },
          RASK_CHAN_OK,
          some (readBytes (ch.handoffData.getD (fun _ => 0)) ch.elemSize))

/-- `unbuffered_try_send` (channel.c:283): never hands off; `FULL` unless
already closed. -/
def unbuffered_try_send (ch : ChanState) : ChanState × Int :=
  if ch.closed ∨ ch.recverCount = 0 then (ch, RASK_CHAN_CLOSED)
  else (ch, RASK_CHAN_FULL)

/-- `unbuffered_try_recv` (channel.c:299): copies the offered bytes and sets
`taken`, but — unlike `unbuffered_recv` — does NOT clear `handoff_ready`. -/
def unbuffered_try_recv (ch : ChanState) : ChanState × Int × Option (List Nat) :=
  if ¬ch.handoffReady then
    if ch.senderCount = 0 ∨ ch.closed then (ch, RASK_CHAN_CLOSED, none)
    else (ch, RASK_CHAN_EMPTY, none)
  else
    ({ ch with handoffTaken := true },
     RASK_CHAN_OK,
     some (readBytes (ch.handoffData.getD (fun _ => 0)) ch.elemSize))

/-- `rask_channel_recv` (channel.c:353): dispatch on capacity. -/
def rask_channel_recv (ch : ChanState) : Option (ChanState × Int × Option (List Nat)) :=
  if 0 < ch.capacity then buffered_recv ch else unbuffered_recv ch

/-- `rask_channel_try_recv` (channel.c:369). -/
def rask_channel_try_recv (ch : ChanState) : ChanState × Int × Option (List Nat) :=
  if 0 < ch.capacity then buffered_try_recv ch else unbuffered_try_recv ch

/-- `rask_channel_try_send` (channel.c:361). -/
def rask_channel_try_send (ch : ChanState) (data : Nat → Nat) : ChanState × Int :=
  if 0 < ch.capacity then buffered_try_send ch data else unbuffered_try_send ch

/-- `rask_sender_clone` (channel.c:377). -/
def rask_sender_clone (ch : ChanState) : ChanState :=
  { ch with senderCount := ch.senderCount + 1 }

/-- `rask_sender_drop` (channel.c:388): decrement; the last sender sets the
closed flag (and broadcasts `not_empty`, a pure wake-up). -/
def rask_sender_drop (ch : ChanState) : ChanState :=
  if ch.senderCount = 1 then
    { ch with senderCount := 0, closed := true }
  else
    { ch with senderCount := ch.senderCount - 1 }

/-- `rask_recver_drop` (channel.c:402): symmetric. -/
def rask_recver_drop (ch : ChanState) : ChanState :=
  if ch.recverCount = 1 then
    { ch with recverCount := 0, closed := true }
  else
    { ch with recverCount := ch.recverCount - 1 }

/-! ## Claim C5 — rendezvous close-during-taken race returns CLOSED -/

/-- Claim C5: in a rendezvous send where the receiver has already set
`taken = 1` but the channel's closed flag is set before the sender re-examines
its state, the send returns `CLOSED`, not `OK`, even though the receiver
consumed the payload: the sender's second wait loop exits on `taken`, clears
the handoff fields and reports `was_closed`. -/
theorem unbuffered_send_taken_closed_returns_closed (ch : ChanState)
    (htaken : ch.handoffTaken = true) (hclosed : ch.closed = true) :
    unbuffered_send_finish ch = some (clearHandoff ch, RASK_CHAN_CLOSED) := by
  unfold unbuffered_send_finish
  simp [htaken, hclosed]

/-- Concrete close-during-taken state: the receiver consumed the payload
(`taken = 1`), the last receiver dropped (`closed = 1`). -/
def c5state : ChanState :=
  { elemSize := 1
    capacity := 0
    buffer := fun _ => 0
    head := 0
    tail := 0
    count := 0
    handoffData := some (fun _ => 42)
    handoffReady := true
    handoffTaken := true
    senderCount := 1
    recverCount := 0
    closed := true }

/-- Witness for claim C5 at the concrete state `c5state`. -/
theorem unbuffered_send_taken_closed_witness :
    unbuffered_send_finish c5state = some (clearHandoff c5state, RASK_CHAN_CLOSED) :=
  unbuffered_send_taken_closed_returns_closed c5state rfl rfl

/-! ## Claim C2 — rendezvous exactly-one-consumption fails in the code

`unbuffered_try_recv` copies the offered element and sets `taken` but leaves
`handoff_ready = 1` (channel.c:312-316), so until the blocked sender wakes up
and clears the flag, a second `recv`/`try_recv` on the same channel observes
the stale offer and consumes the same element again.  The trace below is a
legal mutex interleaving: sender offers, receiver try_recvs (OK), receiver
recvs again (OK, same bytes) before the sender reacquires the lock, sender
finishes (one single OK send). -/

/-- Channel state right after the sender's offer of the byte 42 on a
rendezvous channel with elem_size 1. -/
def c2s1 : ChanState :=
  { channel_alloc 1 0 with
      handoffData := some (fun _ => 42)
      handoffReady := true
      handoffTaken := false }

/-- Claim C2 counterexample trace, evaluated step by step on the embedded
code: one offered element (one send returning OK) is consumed by TWO
successful receives, both returning `OK` with the same payload bytes `[42]` —
refuting "no single offered element is consumed by two successful receives". -/
theorem unbuffered_try_recv_double_consume :
    unbuffered_send_enter (channel_alloc 1 0) (fun _ => 42) = some (c2s1, none)
    ∧ unbuffered_try_recv c2s1 =
        ({ c2s1 with handoffTaken := true }, RASK_CHAN_OK, some [42])
    ∧ unbuffered_recv { c2s1 with handoffTaken := true } =
        some ({ c2s1 with handoffReady := false, handoffTaken := true },
              RASK_CHAN_OK, some [42])
    ∧ unbuffered_send_finish { c2s1 with handoffReady := false, handoffTaken := true } =
        some (clearHandoff { c2s1 with handoffReady := false, handoffTaken := true },
              RASK_CHAN_OK) := by
  refine ⟨?_, ?_, ?_, ?_⟩ <;> rfl

/-! ## Claim C1 — closure observed by the other side -/

/-- Claim C1: once the sender-side refcount is zero, every recv/try_recv
returns `CLOSED` as soon as the buffer is empty, while a buffered recv still
delivers each remaining buffered element with `OK` first (the count strictly
decreases and the sender count stays zero, so after `count` deliveries every
further recv is `CLOSED`); once the receiver-side refcount is zero, every
send/try_send returns `CLOSED` — for the in-flight rendezvous sender this
relies on the closed flag, which the final conjunct shows is set by the very
drop that zeroes the receiver count and is never cleared by any operation. -/
theorem chan_closed_after_side_drop (ch : ChanState) :
    (ch.senderCount = 0 →
      ((ch.capacity > 0 → ch.count = 0 →
          rask_channel_recv ch = some (ch, RASK_CHAN_CLOSED, none)
          ∧ (rask_channel_try_recv ch).2.1 = RASK_CHAN_CLOSED)
       ∧ (ch.capacity > 0 → 0 < ch.count →
          ∃ ch', rask_channel_recv ch
              = some (ch', RASK_CHAN_OK, some (readSlot ch.buffer ch.elemSize ch.head))
            ∧ ch'.count = ch.count - 1 ∧ ch'.senderCount = 0)
       ∧ (ch.capacity = 0 → ch.handoffReady = false →
          rask_channel_recv ch = some (ch, RASK_CHAN_CLOSED, none)
          ∧ (rask_channel_try_recv ch).2.1 = RASK_CHAN_CLOSED)))
    ∧ (ch.recverCount = 0 →
      ((∀ data, ∃ ch', buffered_send ch data = some (ch', RASK_CHAN_CLOSED))
       ∧ (∀ data, (rask_channel_try_send ch data).2 = RASK_CHAN_CLOSED)
       ∧ (∀ data, ∃ ch', unbuffered_send_enter ch data = some (ch', some RASK_CHAN_CLOSED))
       ∧ (ch.closed = true →
          ∃ ch', unbuffered_send_finish ch = some (ch', RASK_CHAN_CLOSED))))
    ∧ (ch.recverCount = 1 →
        (rask_recver_drop ch).recverCount = 0 ∧ (rask_recver_drop ch).closed = true)
    ∧ (ch.senderCount = 1 →
        (rask_sender_drop ch).senderCount = 0 ∧ (rask_sender_drop ch).closed = true) := by
  refine ⟨fun hs => ⟨?_, ?_, ?_⟩, fun hr => ⟨?_, ?_, ?_, ?_⟩, ?_, ?_⟩
  · intro hcap hcnt
    unfold rask_channel_recv buffered_recv rask_channel_try_recv buffered_try_recv
    simp [hcap, hcnt, hs]
  · intro hcap hcnt
    refine ⟨{ ch with head := (ch.head + 1) % ch.capacity, count := ch.count - 1 },
            ?_, rfl, hs⟩
    unfold rask_channel_recv buffered_recv
    simp [hcap, Nat.pos_iff_ne_zero.mp hcnt]
  · intro hcap hready
    unfold rask_channel_recv unbuffered_recv rask_channel_try_recv unbuffered_try_recv
    simp [Nat.le_zero.mp (Nat.le_of_eq hcap), hready, hs]
  · intro data
    unfold buffered_send
    by_cases hfull : ch.count ≥ ch.capacity ∧ ¬ch.closed
    · exact ⟨{ ch with closed := true }, by rw [if_pos hfull, if_pos hr]⟩
    · exact ⟨ch, by rw [if_neg hfull, if_pos (Or.inr hr)]⟩
  · intro data
    unfold rask_channel_try_send buffered_try_send unbuffered_try_send
    by_cases hcap : 0 < ch.capacity <;> simp [hcap, hr]
  · intro data
    unfold unbuffered_send_enter
    by_cases hbusy : ch.handoffReady ∧ ¬ch.closed
    · exact ⟨{ ch with closed := true }, by rw [if_pos hbusy, if_pos hr]⟩
    · exact ⟨ch, by rw [if_neg hbusy, if_pos (Or.inr hr)]⟩
  · intro hcl
    unfold unbuffered_send_finish
    exact ⟨clearHandoff ch, by simp [hcl]⟩
  · intro h1
    unfold rask_recver_drop
    simp [h1]
  · intro h1
    unfold rask_sender_drop
    simp [h1]

/-- Concrete drained channel with both sides dropped: capacity 2, empty
buffer, both refcounts 0, closed. -/
def c1state : ChanState :=
  { channel_alloc 1 2 with senderCount := 0, recverCount := 0, closed := true }

/-- Witness for claim C1 at `c1state`: recv and try_recv report CLOSED on the
drained buffer, send and try_send report CLOSED with no receiver left. -/
theorem chan_closed_after_side_drop_witness :
    (rask_channel_recv c1state = some (c1state, RASK_CHAN_CLOSED, none)
      ∧ (rask_channel_try_recv c1state).2.1 = RASK_CHAN_CLOSED)
    ∧ (∀ data, (rask_channel_try_send c1state data).2 = RASK_CHAN_CLOSED) :=
  ⟨((chan_closed_after_side_drop c1state).1 rfl).1 (by decide) rfl,
   ((chan_closed_after_side_drop c1state).2.1 rfl).2.1⟩

/-! ## Claim C3 — buffered channels are FIFO and byte-identical

The ring buffer (`head`/`tail`/`count` over a flat `capacity * elem_size`
byte array) is refined to an abstract queue of byte lists. -/

/-- Structural invariant of the ring maintained by channel.c: positive
capacity and element size, indices in range, `count` bounded by capacity and
`tail` sitting `count` slots after `head` (mod capacity). -/
def RingInv (ch : ChanState) : Prop :=
  0 < ch.capacity ∧ 0 < ch.elemSize ∧ ch.head < ch.capacity ∧ ch.tail < ch.capacity
    ∧ ch.count ≤ ch.capacity ∧ ch.tail = (ch.head + ch.count) % ch.capacity

instance (ch : ChanState) : Decidable (RingInv ch) := by
  unfold RingInv; infer_instance

/-- The abstract FIFO content of the ring: the `count` elements starting at
`head`, oldest first. -/
def absQueue (ch : ChanState) : List (List Nat) :=
  (List.range ch.count).map
    (fun i => readSlot ch.buffer ch.elemSize ((ch.head + i) % ch.capacity))

theorem readSlot_writeSlot_same (buf : Nat → Nat) (es i : Nat) (src : Nat → Nat) :
    readSlot (writeSlot buf es i src) es i = readBytes src es := by
  unfold readSlot writeSlot readBytes
  refine List.map_congr_left (fun j hj => ?_)
  rw [List.mem_range] at hj
  rw [if_pos ⟨Nat.le_add_right _ _, by rw [Nat.succ_mul]; exact Nat.add_lt_add_left hj _⟩,
    Nat.add_sub_cancel_left]

theorem readSlot_writeSlot_ne (buf : Nat → Nat) (es i j : Nat) (src : Nat → Nat)
    (h : j ≠ i) : readSlot (writeSlot buf es i src) es j = readSlot buf es j := by
  unfold readSlot writeSlot
  refine List.map_congr_left (fun k hk => ?_)
  rw [List.mem_range] at hk
  refine if_neg (fun hin => ?_)
  rcases Nat.lt_or_ge j i with hlt | hge
  · have : j * es + k < i * es :=
      Nat.lt_of_lt_of_le (by rw [Nat.succ_mul]; exact Nat.add_lt_add_left hk _)
        (Nat.mul_le_mul_right _ hlt)
    exact absurd hin.1 (Nat.not_le_of_lt this)
  · have hgt : i < j := Nat.lt_of_le_of_ne hge (fun he => h he.symm)
    have : (i + 1) * es ≤ j * es + k :=
      Nat.le_trans (Nat.mul_le_mul_right _ hgt) (Nat.le_add_right _ _)
    exact absurd hin.2 (Nat.not_lt_of_ge this)

/-- Two live ring slots never alias: for `i < count < capacity` the slot
`(head + i) % capacity` differs from the write slot `(head + count) % capacity`. -/
theorem ring_index_ne (cap hd i count : Nat) (hi : i < count) (hc : count < cap) :
    (hd + i) % cap ≠ (hd + count) % cap := by
  intro h
  have h2 : i % cap = count % cap := Nat.ModEq.add_left_cancel' hd h
  rw [Nat.mod_eq_of_lt (Nat.lt_trans hi hc), Nat.mod_eq_of_lt hc] at h2
  exact absurd h2 (Nat.ne_of_lt hi)

/-- Effect of `buffered_send`'s copy on the abstract queue: append. -/
theorem absQueue_after_write (ch : ChanState) (data : Nat → Nat)
    (hinv : RingInv ch) (hlt : ch.count < ch.capacity) :
    absQueue { ch with
                 buffer := writeSlot ch.buffer ch.elemSize ch.tail data
                 tail := (ch.tail + 1) % ch.capacity
                 count := ch.count + 1 }
      = absQueue ch ++ [readBytes data ch.elemSize] := by
  obtain ⟨-, -, -, -, -, htail⟩ := hinv
  unfold absQueue
  simp only [List.range_succ, List.map_append, List.map_cons, List.map_nil]
  congr 1
  · refine List.map_congr_left (fun i hi => ?_)
    rw [List.mem_range] at hi
    exact readSlot_writeSlot_ne _ _ _ _ _ (htail ▸ ring_index_ne _ _ _ _ hi hlt)
  · rw [← htail, readSlot_writeSlot_same]

/-- Effect of `buffered_recv`'s copy on the abstract queue: pop the head. -/
theorem absQueue_cons (ch : ChanState) (hinv : RingInv ch) (hpos : 0 < ch.count) :
    absQueue ch
      = readSlot ch.buffer ch.elemSize ch.head
        :: absQueue { ch with head := (ch.head + 1) % ch.capacity, count := ch.count - 1 } := by
  obtain ⟨hcap, -, hhd, -, -, -⟩ := hinv
  obtain ⟨k, hk⟩ := Nat.exists_eq_add_of_lt hpos
  unfold absQueue
  rw [hk, Nat.zero_add]
  simp only [Nat.add_sub_cancel, List.range_succ_eq_map, List.map_cons, List.map_map]
  congr 1
  · rw [Nat.add_zero, Nat.mod_eq_of_lt hhd]
  · refine List.map_congr_left (fun i _ => ?_)
    simp only [Function.comp_apply]
    rw [Nat.mod_add_mod]
    congr 2
    omega

/-- `buffered_send` preserves the ring invariant. -/
theorem RingInv_send (ch : ChanState) (data : Nat → Nat)
    (hinv : RingInv ch) (hlt : ch.count < ch.capacity) :
    RingInv { ch with
                buffer := writeSlot ch.buffer ch.elemSize ch.tail data
                tail := (ch.tail + 1) % ch.capacity
                count := ch.count + 1 } := by
  obtain ⟨hcap, hes, hhd, htl, hcnt, htail⟩ := hinv
  refine ⟨hcap, hes, hhd, Nat.mod_lt _ hcap, hlt, ?_⟩
  rw [htail, Nat.mod_add_mod, Nat.add_assoc]

/-- `buffered_recv` preserves the ring invariant. -/
theorem RingInv_recv (ch : ChanState) (hinv : RingInv ch) (hpos : 0 < ch.count) :
    RingInv { ch with head := (ch.head + 1) % ch.capacity, count := ch.count - 1 } := by
  obtain ⟨hcap, hes, hhd, htl, hcnt, htail⟩ := hinv
  refine ⟨hcap, hes, Nat.mod_lt _ hcap, htl, Nat.le_trans (Nat.sub_le _ _) hcnt, ?_⟩
  have harith : ch.head + 1 + (ch.count - 1) = ch.head + ch.count := by omega
  rw [htail, Nat.mod_add_mod, harith]

/-- Operations a client can run against one buffered channel; the data of a
send is the caller's element pointer (byte view). -/
inductive BufOp where
  | send (data : Nat → Nat)
  | recv
  | trySend (data : Nat → Nat)
  | tryRecv
  | senderClone
  | senderDrop
  | recverDrop

/-- Observable events: the bytes accepted by a send returning OK, and the
bytes delivered by a recv returning OK. -/
inductive BufEvent where
  | sent (bytes : List Nat)
  | received (bytes : List Nat)

/-- One serialized critical section of the channel; a blocked call (`none`
from the embedded operation) leaves the state unchanged and emits nothing. -/
def bufStep (ch : ChanState) (op : BufOp) : ChanState × Option BufEvent :=
  match op with
  | .send data =>
    match buffered_send ch data with
    | none => (ch, none)
    | some (ch', r) =>
      (ch', if r = RASK_CHAN_OK then some (.sent (readBytes data ch.elemSize)) else none)
  | .recv =>
    match buffered_recv ch with
    | none => (ch, none)
    | some (ch', _, out) => (ch', out.map .received)
  | .trySend data =>
    match buffered_try_send ch data with
    | (ch', r) =>
      (ch', if r = RASK_CHAN_OK then some (.sent (readBytes data ch.elemSize)) else none)
  | .tryRecv =>
    match buffered_try_recv ch with
    | (ch', _, out) => (ch', out.map .received)
  | .senderClone => (rask_sender_clone ch, none)
  | .senderDrop => (rask_sender_drop ch, none)
  | .recverDrop => (rask_recver_drop ch, none)

/-- Run a sequence of serialized operations, collecting the event trace. -/
def bufRun (ch : ChanState) : List BufOp → ChanState × List BufEvent
  | [] => (ch, [])
  | op :: ops =>
    let s := bufStep ch op
    let r := bufRun s.1 ops
    (r.1, s.2.toList ++ r.2)

/-- Bytes of the sends that returned OK, in order. -/
def sentList (evs : List BufEvent) : List (List Nat) :=
  evs.filterMap (fun e => match e with | .sent b => some b | _ => none)

/-- Bytes of the receives that returned OK, in order. -/
def recvList (evs : List BufEvent) : List (List Nat) :=
  evs.filterMap (fun e => match e with | .received b => some b | _ => none)

/-- One step preserves the ring invariant and the queue refinement: the
stream seen so far plus the live queue is conserved. -/
theorem bufStep_inv (ch : ChanState) (op : BufOp) (hinv : RingInv ch) :
    RingInv (bufStep ch op).1
    ∧ absQueue ch ++ sentList (bufStep ch op).2.toList
        = recvList (bufStep ch op).2.toList ++ absQueue (bufStep ch op).1 := by
  have hq1 : ∀ b, sentList [BufEvent.sent b] = [b] := fun _ => rfl
  have hq2 : ∀ b, recvList [BufEvent.sent b] = [] := fun _ => rfl
  have hq3 : ∀ b, sentList [BufEvent.received b] = [] := fun _ => rfl
  have hq4 : ∀ b, recvList [BufEvent.received b] = [b] := fun _ => rfl
  cases op with
  | send data =>
    simp only [bufStep]
    unfold buffered_send
    by_cases hfull : ch.count ≥ ch.capacity ∧ ¬ch.closed
    · rw [if_pos hfull]
      by_cases hr : ch.recverCount = 0
      · rw [if_pos hr]
        exact ⟨hinv, by simp [sentList, recvList, absQueue, RASK_CHAN_CLOSED, RASK_CHAN_OK]⟩
      · rw [if_neg hr]
        exact ⟨hinv, by simp [sentList, recvList]⟩
    · rw [if_neg hfull]
      by_cases hcl : ch.closed ∨ ch.recverCount = 0
      · rw [if_pos hcl]
        exact ⟨hinv, by simp [sentList, recvList, RASK_CHAN_CLOSED, RASK_CHAN_OK]⟩
      · rw [if_neg hcl]
        have hlt : ch.count < ch.capacity := by
          rcases Nat.lt_or_ge ch.count ch.capacity with h | h
          · exact h
          · exact absurd ⟨h, fun hc => hcl (Or.inl hc)⟩ hfull
        refine ⟨RingInv_send ch data hinv hlt, ?_⟩
        rw [absQueue_after_write ch data hinv hlt]
        simp [sentList, recvList]
  | recv =>
    simp only [bufStep]
    unfold buffered_recv
    by_cases hz : ch.count = 0
    · rw [if_pos hz]
      by_cases hs : ch.senderCount = 0
      · rw [if_pos hs]
        exact ⟨hinv, by simp [sentList, recvList]⟩
      · rw [if_neg hs]
        by_cases hcl : ch.closed
        · rw [if_pos hcl]
          exact ⟨hinv, by simp [sentList, recvList]⟩
        · rw [if_neg hcl]
          exact ⟨hinv, by simp [sentList, recvList]⟩
    · rw [if_neg hz]
      have hpos : 0 < ch.count := Nat.pos_of_ne_zero hz
      refine ⟨RingInv_recv ch hinv hpos, ?_⟩
      rw [absQueue_cons ch hinv hpos]
      simp [sentList, recvList]
  | trySend data =>
    simp only [bufStep]
    unfold buffered_try_send
    by_cases hcl : ch.closed ∨ ch.recverCount = 0
    · rw [if_pos hcl]
      exact ⟨hinv, by simp [sentList, recvList, RASK_CHAN_CLOSED, RASK_CHAN_OK]⟩
    · rw [if_neg hcl]
      by_cases hfull : ch.count ≥ ch.capacity
      · rw [if_pos hfull]
        exact ⟨hinv, by simp [sentList, recvList, RASK_CHAN_FULL, RASK_CHAN_OK]⟩
      · rw [if_neg hfull]
        have hlt : ch.count < ch.capacity := Nat.lt_of_not_ge hfull
        refine ⟨RingInv_send ch data hinv hlt, ?_⟩
        rw [absQueue_after_write ch data hinv hlt]
        simp [sentList, recvList]
  | tryRecv =>
    simp only [bufStep]
    unfold buffered_try_recv
    by_cases hz : ch.count = 0
    · rw [if_pos hz]
      by_cases hcl : ch.senderCount = 0 ∨ ch.closed
      · rw [if_pos hcl]
        exact ⟨hinv, by simp [sentList, recvList]⟩
      · rw [if_neg hcl]
        exact ⟨hinv, by simp [sentList, recvList]⟩
    · rw [if_neg hz]
      have hpos : 0 < ch.count := Nat.pos_of_ne_zero hz
      refine ⟨RingInv_recv ch hinv hpos, ?_⟩
      rw [absQueue_cons ch hinv hpos]
      simp [sentList, recvList]
  | senderClone =>
    simp only [bufStep]
    exact ⟨hinv, by simp [rask_sender_clone, sentList, recvList, absQueue]⟩
  | senderDrop =>
    simp only [bufStep]
    unfold rask_sender_drop
    by_cases h1 : ch.senderCount = 1
    · rw [if_pos h1]
      exact ⟨hinv, by simp [sentList, recvList, absQueue]⟩
    · rw [if_neg h1]
      exact ⟨hinv, by simp [sentList, recvList, absQueue]⟩
  | recverDrop =>
    simp only [bufStep]
    unfold rask_recver_drop
    by_cases h1 : ch.recverCount = 1
    · rw [if_pos h1]
      exact ⟨hinv, by simp [sentList, recvList, absQueue]⟩
    · rw [if_neg h1]
      exact ⟨hinv, by simp [sentList, recvList, absQueue]⟩

theorem sentList_append (a b : List BufEvent) :
    sentList (a ++ b) = sentList a ++ sentList b := by
  unfold sentList; exact List.filterMap_append ..

theorem recvList_append (a b : List BufEvent) :
    recvList (a ++ b) = recvList a ++ recvList b := by
  unfold recvList; exact List.filterMap_append ..

/-- Conservation along a whole run: initial queue plus everything accepted
equals everything delivered plus the final queue. -/
theorem bufRun_conserves (ops : List BufOp) (ch : ChanState) (hinv : RingInv ch) :
    RingInv (bufRun ch ops).1
    ∧ absQueue ch ++ sentList (bufRun ch ops).2
        = recvList (bufRun ch ops).2 ++ absQueue (bufRun ch ops).1 := by
  induction ops generalizing ch with
  | nil => simpa [bufRun, sentList, recvList] using hinv
  | cons op ops ih =>
    obtain ⟨hinv', hstep⟩ := bufStep_inv ch op hinv
    obtain ⟨hinvf, hrun⟩ := ih (bufStep ch op).1 hinv'
    refine ⟨hinvf, ?_⟩
    simp only [bufRun]
    rw [sentList_append, recvList_append, ← List.append_assoc, hstep, List.append_assoc,
      hrun, List.append_assoc]

/-- Claim C3: on a freshly allocated buffered channel (capacity > 0), for any
serialized sequence of channel operations, the i-th recv that returns OK
yields exactly the `elem_size` bytes supplied to the i-th send that returned
OK — delivery is FIFO and byte-identical. -/
theorem buffered_fifo_byte_identical (es cap : Nat) (hes : 0 < es) (hcap : 0 < cap)
    (ops : List BufOp) :
    ∀ i < (recvList (bufRun (channel_alloc es cap) ops).2).length,
      (recvList (bufRun (channel_alloc es cap) ops).2).get? i
        = (sentList (bufRun (channel_alloc es cap) ops).2).get? i := by
  intro i hi
  have hinv0 : RingInv (channel_alloc es cap) := by
    refine ⟨hcap, hes, hcap, hcap, Nat.zero_le _, ?_⟩
    show (0 : Nat) = (0 + 0) % cap
    simp
  obtain ⟨-, hcons⟩ := bufRun_conserves ops (channel_alloc es cap) hinv0
  have h0 : absQueue (channel_alloc es cap) = [] := by
    unfold absQueue channel_alloc
    simp
  rw [h0, List.nil_append] at hcons
  rw [hcons, List.get?_append hi]

/-- Witness for claim C3: elem_size 1, capacity 2, send 5 then 6, receive
twice; both hypotheses hold and the deliveries match the sends pairwise. -/
theorem buffered_fifo_byte_identical_witness :
    (0 : Nat) < 1 ∧ (0 : Nat) < 2 ∧
      ∀ i < (recvList (bufRun (channel_alloc 1 2)
               [.send (fun _ => 5), .send (fun _ => 6), .recv, .recv]).2).length,
        (recvList (bufRun (channel_alloc 1 2)
           [.send (fun _ => 5), .send (fun _ => 6), .recv, .recv]).2).get? i
          = (sentList (bufRun (channel_alloc 1 2)
               [.send (fun _ => 5), .send (fun _ => 6), .recv, .recv]).2).get? i :=
  ⟨Nat.zero_lt_one, by decide,
   buffered_fifo_byte_identical 1 2 Nat.zero_lt_one (by decide) _⟩

/-! ## Claim C4 — cleanup (ensure) hooks, green.c:757-795

The C cleanup stack `tl_ensure_stack` is declared `__thread`: there is ONE
stack per worker OS thread, not one per task.  The embedding therefore keeps
one list of hook identifiers per worker; `run_ensure_hooks` drains the stack
of the worker the completing poll happens to run on. -/

/-- The per-thread `tl_ensure_stack` linked lists for `n` worker threads,
head of each list = most recently pushed hook. -/
def EnsureStacks (n : Nat) : Type := Fin n → List Nat

/-- `rask_ensure_push` (green.c:769): prepend onto the calling thread's list. -/
def rask_ensure_push {n : Nat} (ts : EnsureStacks n) (w : Fin n) (hook : Nat) :
    EnsureStacks n :=
  fun i => if i = w then hook :: ts i else ts i

/-- `rask_ensure_pop` (green.c:778): drop the head of the calling thread's
list (no-op when empty). -/
def rask_ensure_pop {n : Nat} (ts : EnsureStacks n) (w : Fin n) : EnsureStacks n :=
  fun i => if i = w then (ts i).tail else ts i

/-- `run_ensure_hooks` (green.c:786), called by `execute_task` on the worker
that observes the poll finish (normally, cancelled, or after a panic
longjmp): drains the calling thread's whole list and runs its hooks in list
order (last pushed first).  Returns the new stacks and the run order. -/
def run_ensure_hooks {n : Nat} (ts : EnsureStacks n) (w : Fin n) :
    EnsureStacks n × List Nat :=
  (fun i => if i = w then [] else ts i, ts w)

/-- Claim C4 failing-input evaluation: hooks are keyed by OS thread, not by
task.  A task polls on worker 0, pushes hook 7 and returns PENDING; it is
later stolen and completes on worker 1.  At the task's completion
`run_ensure_hooks` (worker 1) runs NO hooks, and hook 7 is left behind on
worker 0's stack — the hook did not run before the task completed,
contradicting the claim.  The second conjunct shows the claimed LIFO order
does hold when push and completion happen on the same worker thread. -/
theorem ensure_hooks_thread_local_not_per_task :
    ((run_ensure_hooks (rask_ensure_push (fun _ => []) (0 : Fin 2) 7) 1).2 = []
      ∧ (run_ensure_hooks (rask_ensure_push (fun _ => []) (0 : Fin 2) 7) 1).1 0 = [7])
    ∧ (run_ensure_hooks
        (rask_ensure_push (rask_ensure_push (rask_ensure_push (fun _ => []) (0 : Fin 2) 1) 0 2) 0 3)
        0).2 = [3, 2, 1] := by
  refine ⟨⟨?_, ?_⟩, ?_⟩ <;> rfl

/-! ## Claim C6 — consumed task handles, green.c:549-602

The compiler front-end that emits the `rask_green_join` / `rask_green_detach`
/ `rask_green_cancel` call sites is not under src/ (only the runtime is).
Modelled from the spec: per the spec's affine-handle rule ("each handle must
be consumed exactly once ... others must detect double-consumption
dynamically and fail fatally, as the source does"), a handle that has already
been consumed is presented to the runtime as a null handle (or a handle whose
task pointer is null), which is exactly what the runtime's
`if (!h || !h->task)` guard tests. -/

/-- Completed-task record reachable from a handle (`GreenTask` fields a
consumer reads: result, panic message, cancel flag). -/
structure GreenTaskRec where
  result : Int
  panicMsg : Option String
  cancelFlag : Bool

/-- `GreenHandle` (green.c:69): `task = none` models a null task pointer. -/
structure GreenHandle where
  task : Option GreenTaskRec

/-- Modelled from the spec: the compiler front-end emitting the call sites is
missing from src/; per the spec's affine-handle rule, a consumed handle as
the runtime receives it is a null handle or a handle with a null task. -/
def consumedHandle (h : Option GreenHandle) : Prop :=
  h = none ∨ ∃ hh, h = some hh ∧ hh.task = none

/-- Outcome of a join-like call: a normal result, a propagated task panic
re-raised in the joining context, or a fatal `rask_panic` raised by the
runtime itself. -/
inductive JoinOutcome where
  | ok (result : Int)
  | repanic (msg : String)
  | fatal (msg : String)
deriving DecidableEq

/-- `rask_green_join` (green.c:549): guard, wait for completion (the model
receives the completed record), propagate a stored panic or return the
result. -/
def rask_green_join (h : Option GreenHandle) : JoinOutcome :=
  match h with
  | none => .fatal "join on consumed TaskHandle"
  | some hh =>
    match hh.task with
    | none => .fatal "join on consumed TaskHandle"
    | some t =>
      match t.panicMsg with
      | some msg => .repanic msg
      | none => .ok t.result

/-- Outcome of `rask_green_detach` (green.c:581). -/
inductive DetachOutcome where
  | done
  | fatal (msg : String)
deriving DecidableEq

def rask_green_detach (h : Option GreenHandle) : DetachOutcome :=
  match h with
  | none => .fatal "detach on consumed TaskHandle"
  | some hh =>
    match hh.task with
    | none => .fatal "detach on consumed TaskHandle"
    | some _ => .done

/-- `rask_green_cancel` (green.c:591): guard, set the cancel flag, then join. -/
def rask_green_cancel (h : Option GreenHandle) : JoinOutcome :=
  match h with
  | none => .fatal "cancel on consumed TaskHandle"
  | some hh =>
    match hh.task with
    | none => .fatal "cancel on consumed TaskHandle"
    | some t => rask_green_join (some { task := some { t with cancelFlag := true } })

/-- `s` contains `sub` as a substring. -/
def containsSub (s sub : String) : Prop :=
  ∃ pre post, s = pre ++ (sub ++ post)

/-- Claim C6: join, detach and cancel on an already-consumed handle each
raise a fatal failure whose message contains "consumed TaskHandle"; none of
them proceeds to a normal outcome. -/
theorem consumed_handle_fatal (h : Option GreenHandle) (hc : consumedHandle h) :
    (∃ m, rask_green_join h = .fatal m ∧ containsSub m "consumed TaskHandle")
    ∧ (∃ m, rask_green_detach h = .fatal m ∧ containsSub m "consumed TaskHandle")
    ∧ (∃ m, rask_green_cancel h = .fatal m ∧ containsSub m "consumed TaskHandle")
    ∧ (∀ r, rask_green_join h ≠ .ok r) ∧ rask_green_detach h ≠ .done
    ∧ (∀ r, rask_green_cancel h ≠ .ok r) := by
  have hj : rask_green_join h = .fatal "join on consumed TaskHandle" := by
    rcases hc with rfl | ⟨hh, rfl, ht⟩
    · rfl
    · simp only [rask_green_join, ht]
  have hd : rask_green_detach h = .fatal "detach on consumed TaskHandle" := by
    rcases hc with rfl | ⟨hh, rfl, ht⟩
    · rfl
    · simp only [rask_green_detach, ht]
  have hk : rask_green_cancel h = .fatal "cancel on consumed TaskHandle" := by
    rcases hc with rfl | ⟨hh, rfl, ht⟩
    · rfl
    · simp only [rask_green_cancel, ht]
  refine ⟨⟨_, hj, "join on ", "", by decide⟩,
          ⟨_, hd, "detach on ", "", by decide⟩,
          ⟨_, hk, "cancel on ", "", by decide⟩,
          fun r hr => by rw [hj] at hr; exact JoinOutcome.noConfusion hr,
          fun hr => by rw [hd] at hr; exact DetachOutcome.noConfusion hr,
          fun r hr => by rw [hk] at hr; exact JoinOutcome.noConfusion hr⟩

/-- Witness for claim C6 at the concrete consumed handle `none`. -/
theorem consumed_handle_fatal_witness :
    (∃ m, rask_green_join none = .fatal m ∧ containsSub m "consumed TaskHandle")
    ∧ (∃ m, rask_green_detach none = .fatal m ∧ containsSub m "consumed TaskHandle")
    ∧ (∃ m, rask_green_cancel none = .fatal m ∧ containsSub m "consumed TaskHandle")
    ∧ (∀ r, rask_green_join none ≠ .ok r) ∧ rask_green_detach none ≠ .done
    ∧ (∀ r, rask_green_cancel none ≠ .ok r) :=
  consumed_handle_fatal none (Or.inl rfl)

/-! ## Claim C7 — Chase-Lev deque pop, green.c:104-127 -/

/-- `DEQUE_CAP` (green.c:38). -/
def DEQUE_CAP : Int := 1024

/-- A worker's `WorkDeque` (green.c:79): `top`/`bottom` are C `long`s, the
fixed buffer is read at `index % DEQUE_CAP`; slots hold task identifiers. -/
structure WorkDeque where
  buf : Int → Nat
  top : Int
  bottom : Int

/-- `deque_push` (green.c:91). -/
def deque_push (d : WorkDeque) (task : Nat) : WorkDeque :=
  if d.bottom - d.top ≥ DEQUE_CAP then d
  else { d with
           buf := fun i => if i = d.bottom % DEQUE_CAP then task else d.buf i
           bottom := d.bottom + 1 }

/-- `deque_pop` (green.c:104).  `stealerWon = true` models the interleaving
in which, between pop's fenced reads and its compare-and-swap on `top`, a
concurrent `deque_steal` CAS on `top` succeeded first (taking `buf[t]` and
advancing `top` to `t + 1`), so pop's own CAS fails and it returns no task. -/
def deque_pop (d : WorkDeque) (stealerWon : Bool) : WorkDeque × Option Nat :=
  let b := d.bottom - 1
  let t := d.top
  if t ≤ b then
    let task := d.buf (b % DEQUE_CAP)
    if t = b then
      if stealerWon then ({ d with top := t + 1, bottom := b + 1 }, none)
      else ({ d with top := t + 1, bottom := b + 1 }, some task)
    else ({ d with bottom := b }, some task)
  else
    ({ d with bottom := b + 1 }, none)

/-- `deque_steal` (green.c:129), uncontended success case (for reference:
the stealer advances `top` by one and takes `buf[t]`). -/
def deque_steal (d : WorkDeque) : WorkDeque × Option Nat :=
  if d.top ≥ d.bottom then (d, none)
  else ({ d with top := d.top + 1 }, some (d.buf (d.top % DEQUE_CAP)))

/-- Owner-visible deque sanity: `top` never exceeds `bottom` and is never
negative (both only ever grow from 0; pop restores `bottom` on the paths
that take no task). -/
def DequeInv (d : WorkDeque) : Prop := 0 ≤ d.top ∧ d.top ≤ d.bottom

instance (d : WorkDeque) : Decidable (DequeInv d) := by
  unfold DequeInv; infer_instance

/-- Claim C7: whenever `deque_pop` returns no task — the deque was empty, or
the last-element CAS was lost to a stealer — it leaves `bottom = top` (the
canonical empty state) and writes nothing to the task buffer. -/
theorem deque_pop_none_restores_empty (d d' : WorkDeque) (w : Bool) (hinv : DequeInv d)
    (hnone : deque_pop d w = (d', none)) :
    d'.bottom = d'.top ∧ d'.buf = d.buf := by
  obtain ⟨htop, hle⟩ := hinv
  unfold deque_pop at hnone
  by_cases hbt : d.top ≤ d.bottom - 1
  · rw [if_pos hbt] at hnone
    by_cases heq : d.top = d.bottom - 1
    · rw [if_pos heq] at hnone
      cases w with
      | false => simp at hnone
      | true =>
        rw [if_pos rfl] at hnone
        have hst := (Prod.ext_iff.mp hnone).1
        subst hst
        refine ⟨?_, rfl⟩
        show d.bottom - 1 + 1 = d.top + 1
        omega
    · rw [if_neg heq] at hnone
      simp at hnone
  · rw [if_neg hbt] at hnone
    have hst := (Prod.ext_iff.mp hnone).1
    subst hst
    refine ⟨?_, rfl⟩
    show d.bottom - 1 + 1 = d.top
    omega

/-- Witness for claim C7 on the concrete empty deque (`top = bottom = 0`),
no steal interference: pop takes nothing and restores `bottom = top`. -/
theorem deque_pop_none_restores_empty_witness :
    ({ buf := fun _ => 0, top := 0, bottom := 0 } : WorkDeque).bottom
      = ({ buf := fun _ => 0, top := 0, bottom := 0 } : WorkDeque).top
    ∧ ({ buf := fun _ => 0, top := 0, bottom := 0 } : WorkDeque).buf
      = ({ buf := fun _ => 0, top := 0, bottom := 0 } : WorkDeque).buf :=
  deque_pop_none_restores_empty { buf := fun _ => 0, top := 0, bottom := 0 }
    { buf := fun _ => 0, top := 0, bottom := 0 } false (by decide) rfl

/-! ## Claim C8 — pool handles and generation counters, pool.c

Slots are the interleaved `[gen][next_free][data]` records; `next = -2` is
the occupied sentinel, `-1` ends the free list, values `≥ 0` chain it.
`RASK_DEBUG` is not defined in a release build, so `pool_validate` checks
only the slot index bound and the generation. -/

def UINT32_MAX : Nat := 4294967295

structure PoolSlot where
  gen : Nat
  next : Int
  data : Nat → Nat

structure PoolState where
  poolId : Nat
  elemSize : Nat
  cap : Nat
  len : Nat
  slots : Nat → PoolSlot
  freeHead : Int

/-- `RaskHandle` (rask_runtime.h:125). -/
structure PoolHandle where
  poolId : Nat
  index : Nat
  generation : Nat

/-- `pool_grow` (pool.c:79): extend capacity; fresh slots get generation 0
and are chained onto the front of the free list.  The data bytes of a fresh
slot are whatever `realloc` left there; the claims never read them, the
model zeroes them. -/
def pool_grow (p : PoolState) (newCap : Nat) : PoolState :=
  { p with
      cap := newCap
      slots := fun i =>
        if p.cap ≤ i ∧ i < newCap then
          { gen := 0
            next := if i + 1 < newCap then ((i + 1 : Nat) : Int) else p.freeHead
            data := fun _ => 0 }
        else p.slots i
      freeHead := (p.cap : Int) }

/-- `pool_validate` (pool.c:155), release build: index in range and matching
generation (occupancy is NOT checked). -/
def pool_validate (p : PoolState) (h : PoolHandle) : Bool :=
  decide (h.index < p.cap) && decide ((p.slots h.index).gen = h.generation)

/-- `rask_pool_get` (pool.c:166). -/
def rask_pool_get (p : PoolState) (h : PoolHandle) : Option (Nat → Nat) :=
  if pool_validate p h then some (p.slots h.index).data else none

/-- `rask_pool_is_valid` (pool.c:193). -/
def rask_pool_is_valid (p : PoolState) (h : PoolHandle) : Nat :=
  if pool_validate p h then 1 else 0

/-- `rask_pool_remove` (pool.c:171): `none` is the `-1` invalid-handle
return; on success the generation is bumped — SATURATING at `UINT32_MAX` —
and the slot is pushed onto the free list unconditionally. -/
def rask_pool_remove (p : PoolState) (h : PoolHandle) : Option PoolState :=
  if pool_validate p h then
    some { p with
             slots := fun i =>
               if i = h.index then
                 { gen := if (p.slots i).gen < UINT32_MAX then (p.slots i).gen + 1
                          else (p.slots i).gen
                   next := p.freeHead
                   data := (p.slots i).data }
               else p.slots i
             freeHead := (h.index : Int)
             len := p.len - 1 }
  else none

/-- `rask_pool_insert` (pool.c:127): grow when the free list is empty, pop
the head of the free list, mark it occupied, copy the element's
`elem_size` bytes, and hand out a handle carrying the slot's current
generation. -/
def rask_pool_insert (p0 : PoolState) (elem : Nat → Nat) : PoolState × PoolHandle :=
  let p := if p0.freeHead < 0 then pool_grow p0 (if p0.cap = 0 then 4 else p0.cap * 2)
           else p0
  let idx := p.freeHead.toNat
  let slot := p.slots idx
  ({ p with
       slots := fun i =>
         if i = idx then
           { slot with
               next := -2
               data := fun j => if j < p.elemSize then elem j else slot.data j }
         else p.slots i
       freeHead := slot.next
       len := p.len + 1 },
   { poolId := p.poolId, index := idx, generation := slot.gen })

/-- Concrete pool whose single occupied slot has reached the saturated
generation `UINT32_MAX` (the state after 2^32 - 1 insert/remove cycles on
slot 0). -/
def c8pool : PoolState :=
  { poolId := 1
    elemSize := 1
    cap := 1
    len := 1
    slots := fun _ => { gen := UINT32_MAX, next := -2, data := fun _ => 9 }
    freeHead := -1 }

/-- The live handle to that slot. -/
def c8h : PoolHandle := { poolId := 1, index := 0, generation := UINT32_MAX }

/-- Claim C8 failing-input evaluation: `c8h` is valid, `rask_pool_remove`
succeeds — but because the generation saturates at `UINT32_MAX` and the slot
is still pushed onto the free list, the removed handle validates again
immediately (`is_valid = 1`, `get ≠ NULL`), and the next insert reuses the
slot handing out a handle with the same generation.  This contradicts both
"every rask_pool_get(p, h) returns NULL and every rask_pool_is_valid(p, h)
returns 0, permanently" and "a slot whose generation counter has saturated
is permanently retired from reuse" (the source comment "saturate at
UINT32_MAX to permanently invalidate" documents the intended behaviour). -/
theorem pool_saturated_generation_not_retired :
    pool_validate c8pool c8h = true
    ∧ (∃ p', rask_pool_remove c8pool c8h = some p'
         ∧ rask_pool_is_valid p' c8h = 1
         ∧ rask_pool_get p' c8h ≠ none
         ∧ (rask_pool_insert p' (fun _ => 7)).2.index = c8h.index
         ∧ (rask_pool_insert p' (fun _ => 7)).2.generation = c8h.generation
         ∧ rask_pool_is_valid (rask_pool_insert p' (fun _ => 7)).1 c8h = 1) := by
  refine ⟨rfl, ⟨_, rfl, rfl, ?_, rfl, rfl, rfl⟩⟩
  intro hcontra
  exact Option.noConfusion hcontra

/-- For contrast: below saturation the story is right — after a successful
remove of a handle whose generation is below `UINT32_MAX`, the slot
generation is bumped past the handle, so the removed handle no longer
validates: `is_valid` is 0 and `get` is NULL.  This is the sub-saturation
half of claim C8, kept as a supporting lemma of the counterexample
analysis. -/
theorem pool_remove_bumps_generation (p p' : PoolState) (h : PoolHandle)
    (hgen : h.generation < UINT32_MAX)
    (hrm : rask_pool_remove p h = some p') :
    rask_pool_is_valid p' h = 0 ∧ rask_pool_get p' h = none := by
  unfold rask_pool_remove at hrm
  by_cases hv : pool_validate p h
  · rw [if_pos hv] at hrm
    have hgeq : (p.slots h.index).gen = h.generation :=
      of_decide_eq_true ((Bool.and_eq_true _ _).mp hv).2
    have hp' := Option.some_injective _ hrm
    subst hp'
    constructor
    · simp [rask_pool_is_valid, pool_validate, hgeq, hgen]
    · simp [rask_pool_get, pool_validate, hgeq, hgen]
  · rw [if_neg hv] at hrm
    exact Option.noConfusion hrm

/-- Concrete one-slot pool with generation 5 for the witness below. -/
def c8pool5 : PoolState :=
  { poolId := 1, elemSize := 1, cap := 1, len := 1
    slots := fun _ => { gen := 5, next := -2, data := fun _ => 9 }
    freeHead := -1 }

/-- The post-remove state of `c8pool5` (slot generation bumped to 6, slot on
the free list). -/
def c8pool5r : PoolState :=
  { poolId := 1, elemSize := 1, cap := 1, len := 0
    slots := fun i =>
      if i = 0 then { gen := 6, next := -1, data := fun _ => 9 }
      else { gen := 5, next := -2, data := fun _ => 9 }
    freeHead := 0 }

/-- Witness for the supporting lemma at `c8pool5`: after the remove, the
removed handle is rejected. -/
theorem pool_remove_bumps_generation_witness :
    rask_pool_is_valid c8pool5r { poolId := 1, index := 0, generation := 5 } = 0
    ∧ rask_pool_get c8pool5r { poolId := 1, index := 0, generation := 5 } = none :=
  pool_remove_bumps_generation c8pool5 c8pool5r
    { poolId := 1, index := 0, generation := 5 } (by decide)
    (by simp [rask_pool_remove, pool_validate, c8pool5, c8pool5r, UINT32_MAX])

/-! ## Claim C9 — epoll backend timeout ordering, io_epoll_engine.c

A pending timeout is `(deadline_ns, id)` where `id` stands for the
`(cb, ud)` pair.  `epoll_submit_timeout` (lines 176-200) walks the list past
every entry with `deadline_ns <= op->deadline_ns` and splices the new node
in; `epoll_io_poll` (lines 239-314) repeatedly pops and fires the list head
while its deadline is `<= now`, re-reading the monotonic clock after each
callback. -/

structure TimeoutOp where
  deadline : Nat
  id : Nat
deriving DecidableEq

/-- The splice loop of `epoll_submit_timeout`: insert after all entries with
deadline `≤` the new one. -/
def insertTimeout : List TimeoutOp → TimeoutOp → List TimeoutOp
  | [], op => [op]
  | x :: xs, op =>
    if x.deadline ≤ op.deadline then x :: insertTimeout xs op
    else op :: x :: xs

/-- `epoll_submit_timeout`: deadline is `clock_ns() + ns`. -/
def epoll_submit_timeout (timeouts : List TimeoutOp) (now ns id : Nat) :
    List TimeoutOp :=
  insertTimeout timeouts { deadline := now + ns, id := id }

/-- The expired-timeout drain loop of `epoll_io_poll`: each iteration reads
the clock (the `nows` stream supplies the successive readings) and fires the
list head while `head.deadline_ns <= now`.  Returns (fired in call order,
remaining list). -/
def fireExpired : List Nat → List TimeoutOp → List TimeoutOp × List TimeoutOp
  | now :: nows, x :: xs =>
    if x.deadline ≤ now then
      ((fireExpired nows xs).1.cons x, (fireExpired nows xs).2)
    else ([], x :: xs)
  | _, l => ([], l)

/-- Deadline order on pending timeouts. -/
def dlLE (a b : TimeoutOp) : Prop := a.deadline ≤ b.deadline

theorem mem_insertTimeout (l : List TimeoutOp) (op a : TimeoutOp) :
    a ∈ insertTimeout l op ↔ a = op ∨ a ∈ l := by
  induction l with
  | nil => simp [insertTimeout]
  | cons x xs ih =>
    unfold insertTimeout
    by_cases hx : x.deadline ≤ op.deadline
    · rw [if_pos hx]
      simp [ih]
      tauto
    · rw [if_neg hx]
      simp

theorem insertTimeout_pairwise (l : List TimeoutOp) (op : TimeoutOp)
    (h : l.Pairwise dlLE) : (insertTimeout l op).Pairwise dlLE := by
  induction l with
  | nil => simp [insertTimeout, List.pairwise_singleton]
  | cons x xs ih =>
    obtain ⟨hx, hxs⟩ := List.pairwise_cons.mp h
    unfold insertTimeout
    by_cases hle : x.deadline ≤ op.deadline
    · rw [if_pos hle]
      refine List.pairwise_cons.mpr ⟨fun b hb => ?_, ih hxs⟩
      rcases (mem_insertTimeout xs op b).mp hb with rfl | hbx
      · exact hle
      · exact hx b hbx
    · rw [if_neg hle]
      refine List.pairwise_cons.mpr ⟨fun b hb => ?_, h⟩
      have hop : op.deadline ≤ x.deadline := Nat.le_of_lt (Nat.lt_of_not_le hle)
      rcases List.mem_cons.mp hb with rfl | hbx
      · exact hop
      · exact Nat.le_trans hop (hx b hbx)

theorem fireExpired_append (nows : List Nat) (l : List TimeoutOp) :
    (fireExpired nows l).1 ++ (fireExpired nows l).2 = l := by
  induction nows generalizing l with
  | nil => cases l <;> rfl
  | cons now nows ih =>
    cases l with
    | nil => rfl
    | cons x xs =>
      unfold fireExpired
      by_cases hx : x.deadline ≤ now
      · rw [if_pos hx]
        simp [ih xs]
      · rw [if_neg hx]
        rfl

/-- The list built by any sequence of submissions `(now, ns, id)`. -/
def submitAll (subs : List (Nat × Nat × Nat)) : List TimeoutOp :=
  subs.foldl (fun acc s => epoll_submit_timeout acc s.1 s.2.1 s.2.2) []

theorem submitAll_pairwise (subs : List (Nat × Nat × Nat)) :
    (submitAll subs).Pairwise dlLE := by
  have hgen : ∀ (ss : List (Nat × Nat × Nat)) (acc : List TimeoutOp),
      acc.Pairwise dlLE →
      (ss.foldl (fun acc s => epoll_submit_timeout acc s.1 s.2.1 s.2.2) acc).Pairwise dlLE := by
    intro ss
    induction ss with
    | nil => exact fun acc h => h
    | cons s ss ih =>
      intro acc hacc
      exact ih _ (insertTimeout_pairwise _ _ hacc)
  exact hgen subs [] List.Pairwise.nil

/-- Claim C9: after any sequence of `epoll_submit_timeout` calls (in any
submission order) the pending-timeout list is sorted by absolute deadline;
the poll drain fires a prefix of that list, so the fired callbacks come out
in nondecreasing deadline order and every fired deadline is `≤` every
remaining one.  The final conjunct is the spec's concrete scenario: delays
10ms, 30ms, 20ms submitted in that order fire as 10ms, 20ms, 30ms
(identifiers 1, 3, 2). -/
theorem epoll_timeouts_fire_in_deadline_order (subs : List (Nat × Nat × Nat))
    (nows : List Nat) :
    (submitAll subs).Pairwise dlLE
    ∧ (fireExpired nows (submitAll subs)).1 ++ (fireExpired nows (submitAll subs)).2
        = submitAll subs
    ∧ (fireExpired nows (submitAll subs)).1.Pairwise dlLE
    ∧ (fireExpired nows (submitAll subs)).2.Pairwise dlLE
    ∧ (∀ a ∈ (fireExpired nows (submitAll subs)).1,
        ∀ b ∈ (fireExpired nows (submitAll subs)).2, a.deadline ≤ b.deadline)
    ∧ (fireExpired [100, 100, 100] (submitAll [(0, 10, 1), (0, 30, 2), (0, 20, 3)])).1.map
        TimeoutOp.id = [1, 3, 2] := by
  have hsorted := submitAll_pairwise subs
  have happ := fireExpired_append nows (submitAll subs)
  have hsplit : ((fireExpired nows (submitAll subs)).1
      ++ (fireExpired nows (submitAll subs)).2).Pairwise dlLE := by
    rw [happ]; exact hsorted
  obtain ⟨h1, h2, h3⟩ := List.pairwise_append.mp hsplit
  exact ⟨hsorted, happ, h1, h2, h3, by decide⟩

/-! ## Claim C10 — panic entry points, panic.c

The per-thread `struct RaskPanicCtx` carries the active flag and the stored
message; the `jmp_buf` itself is represented by the `jumpTo` outcome, which
transfers control to the task entry that installed the handler.  The
thread-local source location set by `rask_set_panic_location` is the
`PanicLoc` argument.  `rask_panic`/`rask_panic_at` are `_Noreturn`: their
outcome is either a control transfer (`jumpTo`, carrying the thread's panic
context at the moment of the longjmp) or a process abort (`abortProc`,
carrying the diagnostic line printed to stderr). -/

def RASK_PANIC_MSG_MAX : Nat := 512

structure PanicCtx where
  active : Bool
  message : Option String
deriving DecidableEq

structure PanicLoc where
  file : Option String
  line : Int
  col : Int

inductive PanicOutcome where
  | jumpTo (ctx : PanicCtx)
  | abortProc (printed : String)
deriving DecidableEq

/-- The `snprintf(buf, RASK_PANIC_MSG_MAX, "%s:%d:%d: %s", ...)` of
`rask_panic_at`, with the NULL substitutions and the truncation to
`RASK_PANIC_MSG_MAX - 1` characters (bytes in C; the model truncates
characters). -/
def panicAtFormat (file : Option String) (line col : Int) (msg : Option String) :
    String :=
  let s := (file.getD "<unknown>") ++ ":" ++ toString line ++ ":" ++ toString col
             ++ ": " ++ (msg.getD "(unknown panic)")
  String.mk (s.toList.take (RASK_PANIC_MSG_MAX - 1))

/-- `rask_panic_at` (panic.c:121). -/
def rask_panic_at (ctx : PanicCtx) (file : Option String) (line col : Int)
    (msg : Option String) : PanicOutcome :=
  let buf := panicAtFormat file line col msg
  if ctx.active then
    .jumpTo { active := false, message := some buf }
  else
    .abortProc ("panic at " ++ buf)

/-- `rask_panic` (panic.c:96): a pending source location delegates to
`rask_panic_at` (clearing the thread-local location, which has no further
observable effect); otherwise an active handler receives a copy of the
message (`strdup`, with "(unknown panic)" substituted for NULL) and the
active flag is cleared before the longjmp; with no active handler the
message is printed and the process aborts. -/
def rask_panic (ctx : PanicCtx) (loc : PanicLoc) (msg : Option String) :
    PanicOutcome :=
  if loc.file.isSome ∧ 0 < loc.line then
    rask_panic_at ctx loc.file loc.line loc.col msg
  else if ctx.active then
    .jumpTo { active := false, message := some (msg.getD "(unknown panic)") }
  else
    .abortProc ("panic: " ++ (msg.getD "(unknown panic)"))

/-- Claim C10: `rask_panic`/`rask_panic_at` never return (every outcome is a
control transfer or an abort); with an active handler, `rask_panic` stores a
copy of the message — substituting "(unknown panic)" for NULL — and clears
the active flag before transferring control (`rask_panic_at` likewise with
its formatted message); consequently a second panic raised while unwinding
the first (the transferred-to context has `active = false`) prints the
message and aborts instead of transferring control again; and a pending
source location makes `rask_panic` delegate to `rask_panic_at`. -/
theorem panic_never_returns_and_second_panic_aborts (ctx : PanicCtx)
    (loc : PanicLoc) (msg : Option String) :
    ((∃ c, rask_panic ctx loc msg = .jumpTo c)
      ∨ (∃ s, rask_panic ctx loc msg = .abortProc s))
    ∧ ((∃ c, rask_panic_at ctx loc.file loc.line loc.col msg = .jumpTo c)
      ∨ (∃ s, rask_panic_at ctx loc.file loc.line loc.col msg = .abortProc s))
    ∧ (ctx.active = true → ¬(loc.file.isSome ∧ 0 < loc.line) →
        rask_panic ctx loc msg
          = .jumpTo { active := false, message := some (msg.getD "(unknown panic)") })
    ∧ (ctx.active = true →
        rask_panic_at ctx loc.file loc.line loc.col msg
          = .jumpTo { active := false,
                      message := some (panicAtFormat loc.file loc.line loc.col msg) })
    ∧ (∀ c : PanicCtx, c.active = false → ∀ loc2 msg2,
        ¬(loc2.file.isSome ∧ 0 < loc2.line) →
        rask_panic c loc2 msg2 = .abortProc ("panic: " ++ (msg2.getD "(unknown panic)")))
    ∧ ((loc.file.isSome ∧ 0 < loc.line) →
        rask_panic ctx loc msg = rask_panic_at ctx loc.file loc.line loc.col msg) := by
  refine ⟨?_, ?_, ?_, ?_, ?_, ?_⟩
  · unfold rask_panic rask_panic_at
    by_cases hloc : loc.file.isSome ∧ 0 < loc.line
    · rw [if_pos hloc]
      by_cases ha : ctx.active
      · exact Or.inl ⟨_, by rw [if_pos ha]⟩
      · exact Or.inr ⟨_, by rw [if_neg ha]⟩
    · rw [if_neg hloc]
      by_cases ha : ctx.active
      · exact Or.inl ⟨_, by rw [if_pos ha]⟩
      · exact Or.inr ⟨_, by rw [if_neg ha]⟩
  · unfold rask_panic_at
    by_cases ha : ctx.active
    · exact Or.inl ⟨_, by rw [if_pos ha]⟩
    · exact Or.inr ⟨_, by rw [if_neg ha]⟩
  · intro ha hloc
    unfold rask_panic
    rw [if_neg hloc, if_pos ha]
  · intro ha
    unfold rask_panic_at
    rw [if_pos ha]
  · intro c hc loc2 msg2 hloc2
    unfold rask_panic
    rw [if_neg hloc2, if_neg (by rw [hc]; exact Bool.false_ne_true)]
  · intro hloc
    unfold rask_panic
    rw [if_pos hloc]

/-- Witness for claim C10: first panic from an active handler with message
"boom" and no pending location jumps with the stored copy and a cleared
flag; a second panic from the transferred-to context aborts. -/
theorem panic_never_returns_witness :
    rask_panic { active := true, message := none }
        { file := none, line := 0, col := 0 } (some "boom")
      = .jumpTo { active := false, message := some "boom" }
    ∧ rask_panic { active := false, message := some "boom" }
        { file := none, line := 0, col := 0 } (some "again")
      = .abortProc ("panic: " ++ "again") :=
  ⟨(panic_never_returns_and_second_panic_aborts
      { active := true, message := none }
      { file := none, line := 0, col := 0 } (some "boom")).2.2.1 rfl (by simp),
   (panic_never_returns_and_second_panic_aborts
      { active := false, message := some "boom" }
      { file := none, line := 0, col := 0 } (some "again")).2.2.2.2.1
     { active := false, message := some "boom" } rfl
     { file := none, line := 0, col := 0 } (some "again") (by simp)⟩

end Rask
